import Mathlib

/-!
Verification of the mtexts content-extraction core.

Python strings are modelled as `List Char` (a Python `str` is a sequence of
code points), byte payloads as `List Nat`, and file-like objects returned by
the drive layer as `Option Bytes` (`BytesIO` objects are always truthy, so
only `None` is falsy).  Code that may raise a Python exception is modelled
with `Except PyErr`; a `try/except` block becomes a `match` on that value.
External collaborators (the drive client and the third-party parsing
libraries) are parameters of the model (`DriveClient`, `Env`), and the
observable side effects of the extractors (temporary files on disk, fetch
and summarizer invocations) are threaded through an explicit `World` state.
-/

namespace Mtexts

/-- A Python `str`: a sequence of unicode code points. -/
abbrev PyStr := List Char

/-- A Python `bytes` payload: a sequence of byte values. -/
abbrev Bytes := List Nat

/-- The message carried by a raised Python exception (`str(e)`). -/
abbrev PyErr := List Char

/-- Embed a Lean string literal as a `PyStr`. -/
def str (s : String) : PyStr := s.data

/-- The string `"\n"` as a `PyStr`. -/
def nl1 : PyStr := ['\n']

/-- The string `"\n\n"` as a `PyStr`. -/
def nl2 : PyStr := ['\n', '\n']

/-- Python `str.isspace` on a single character, for the characters `strip`
removes (space, tab, newline, carriage return, vertical tab, form feed). -/
def pyIsSpace (c : Char) : Bool :=
  c == ' ' || c == '\t' || c == '\n' || c == '\x0d' || c == '\x0b' || c == '\x0c'

/-- Python `str.strip()`: drop leading and trailing whitespace. -/
def pyStrip (l : PyStr) : PyStr :=
  ((l.dropWhile pyIsSpace).reverse.dropWhile pyIsSpace).reverse

/-- Prepend a character to the first segment of a split result. -/
def consHead (a : Char) : List (List Char) → List (List Char)
  | [] => [[a]]
  | p :: ps => (a :: p) :: ps

/-- Python `str.splitlines()` modelled as splitting on `'\n'`
(`splitlines` drops a trailing empty segment that this model keeps; the
extractor discards empty segments afterwards, so the output is unaffected). -/
def splitOnChar (c : Char) : List Char → List (List Char)
  | [] => [[]]
  | a :: rest =>
    if a = c then [] :: splitOnChar c rest
    else consHead a (splitOnChar c rest)

/-- Python `line.split("  ")`: split on non-overlapping leftmost
occurrences of a two-space separator. -/
def splitTwoSp : List Char → List (List Char)
  | [] => [[]]
  | [a] => [[a]]
  | a :: b :: rest =>
    if a = ' ' ∧ b = ' ' then [] :: splitTwoSp rest
    else consHead a (splitTwoSp (b :: rest))

/-- Python `sep.join(parts)`. -/
def joinSep (sep : List Char) : List (List Char) → List Char
  | [] => []
  | [p] => p
  | p :: ps => p ++ sep ++ joinSep sep ps

/-- Tests that `l` starts with `pat` (Python `str.startswith`). -/
def startsList : List Char → List Char → Bool
  | [], _ => true
  | _ :: _, [] => false
  | p :: ps, a :: as => p == a && startsList ps as

/-- Tests that `pat` occurs as a contiguous substring of `l` (Python `pat in l`). -/
def occursB (pat : List Char) : List Char → Bool
  | [] => pat.isEmpty
  | a :: as => startsList pat (a :: as) || occursB pat as

/-- A continuation byte `0x80..0xBF`. -/
def isCont (b : Nat) : Bool := 0x80 ≤ b && b < 0xC0

/-- Strict UTF-8 decoding (Python `bytes.decode("utf-8")`): `none` models a
raised `UnicodeDecodeError`.  Rejects stray continuation bytes, truncated
sequences, overlong encodings, surrogates and code points above `0x10FFFF`. -/
def utf8Decode : List Nat → Option (List Char)
  | [] => some []
  | b :: rest =>
    if b < 0x80 then (utf8Decode rest).map (fun cs => Char.ofNat b :: cs)
    else if b < 0xC2 then none
    else if b < 0xE0 then
      match rest with
      | c1 :: rest1 =>
        if isCont c1 then
          (utf8Decode rest1).map
            (fun cs => Char.ofNat ((b - 0xC0) * 0x40 + (c1 - 0x80)) :: cs)
        else none
      | [] => none
    else if b < 0xF0 then
      match rest with
      | c1 :: c2 :: rest2 =>
        if isCont c1 && isCont c2 then
          let cp := (b - 0xE0) * 0x1000 + (c1 - 0x80) * 0x40 + (c2 - 0x80)
          if cp < 0x800 then none
          else if 0xD800 ≤ cp && cp < 0xE000 then none
          else (utf8Decode rest2).map (fun cs => Char.ofNat cp :: cs)
        else none
      | _ => none
    else if b < 0xF5 then
      match rest with
      | c1 :: c2 :: c3 :: rest3 =>
        if isCont c1 && isCont c2 && isCont c3 then
          let cp := (b - 0xF0) * 0x40000 + (c1 - 0x80) * 0x1000 +
            (c2 - 0x80) * 0x40 + (c3 - 0x80)
          if cp < 0x10000 || 0x110000 ≤ cp then none
          else (utf8Decode rest3).map (fun cs => Char.ofNat cp :: cs)
        else none
      | _ => none
    else none

/-- The replacement character `U+FFFD`. -/
def replChar : Char := Char.ofNat 0xFFFD

/-- Permissive UTF-8 decoding (Python `bytes.decode("utf-8",
errors="replace")`): total, each invalid byte becomes `U+FFFD`. -/
def decodeReplace : List Nat → List Char
  | [] => []
  | b :: rest =>
    if b < 0x80 then Char.ofNat b :: decodeReplace rest
    else if b < 0xC2 then replChar :: decodeReplace rest
    else if b < 0xE0 then
      match rest with
      | c1 :: rest1 =>
        if isCont c1 then
          Char.ofNat ((b - 0xC0) * 0x40 + (c1 - 0x80)) :: decodeReplace rest1
        else replChar :: decodeReplace (c1 :: rest1)
      | [] => [replChar]
    else if b < 0xF0 then
      match rest with
      | c1 :: c2 :: rest2 =>
        if isCont c1 && isCont c2 then
          let cp := (b - 0xE0) * 0x1000 + (c1 - 0x80) * 0x40 + (c2 - 0x80)
          if cp < 0x800 || (0xD800 ≤ cp && cp < 0xE000) then
            replChar :: decodeReplace (c1 :: c2 :: rest2)
          else Char.ofNat cp :: decodeReplace rest2
        else replChar :: decodeReplace (c1 :: c2 :: rest2)
      | r => replChar :: r.map (fun _ => replChar)
    else if b < 0xF5 then
      match rest with
      | c1 :: c2 :: c3 :: rest3 =>
        if isCont c1 && isCont c2 && isCont c3 then
          let cp := (b - 0xF0) * 0x40000 + (c1 - 0x80) * 0x1000 +
            (c2 - 0x80) * 0x40 + (c3 - 0x80)
          if cp < 0x10000 || 0x110000 ≤ cp then
            replChar :: decodeReplace (c1 :: c2 :: c3 :: rest3)
          else Char.ofNat cp :: decodeReplace rest3
        else replChar :: decodeReplace (c1 :: c2 :: c3 :: rest3)
      | r => replChar :: r.map (fun _ => replChar)
    else replChar :: decodeReplace rest

/-! ## HTML documents (the BeautifulSoup view used by `extract_html`) -/

mutual

/-- A node of the parsed HTML tree (`bs4` tag or navigable string). -/
inductive HtmlNode where
  | txt (s : List Char)
  | elem (tag : String) (children : HtmlForest)

/-- A sequence of sibling HTML nodes; the parsed document is a forest. -/
inductive HtmlForest where
  | nil
  | cons (n : HtmlNode) (rest : HtmlForest)

end

mutual

/-- Models `soup(["script", "style"])` followed by `.extract()` on a single node:
remove every `script`/`style` subtree (`none` when the node itself is one). -/
def removeSS : HtmlNode → Option HtmlNode
  | .txt s => some (.txt s)
  | .elem tag cs =>
    if tag = "script" ∨ tag = "style" then none
    else some (.elem tag (removeSSF cs))

/-- Subtree removal mapped over a forest. -/
def removeSSF : HtmlForest → HtmlForest
  | .nil => .nil
  | .cons n rest =>
    match removeSS n with
    | some m => .cons m (removeSSF rest)
    | none => removeSSF rest

end

mutual

/-- Models `soup.get_text()` on a node: concatenation of all text descendants. -/
def getText : HtmlNode → List Char
  | .txt s => s
  | .elem _ cs => getTextF cs

/-- The `get_text` collection over a forest. -/
def getTextF : HtmlForest → List Char
  | .nil => []
  | .cons n rest => getText n ++ getTextF rest

end

/-! ## Data model: file metadata, effects, collaborators -/

/-- The file metadata consumed by the dispatcher: `file_info.get("id")`
(which may be absent), `file_info.get("name", "Unknown file")` and
`file_info.get("mimeType", "")`. -/
structure FileInfo where
  id : Option String
  name : String
  mimeType : String
deriving DecidableEq

/-- The result of `generate_content_summary`: a summary text and key
concepts. -/
structure Summary where
  summaryText : PyStr
  keyConcepts : List PyStr
deriving DecidableEq

/-- A document entry appended to `results` by the main loop:
`{"metadata": ..., "summary": ..., "content": ...}`. -/
structure DocumentRecord where
  metadata : FileInfo
  summary : Summary
  content : PyStr
deriving DecidableEq

/-- Observable invocations of external collaborators. -/
inductive Event where
  | download (fileId : Option String)
  | exportFile (fileId : Option String) (mimeType : String)
  | summarizeCall (content : PyStr)
deriving DecidableEq

/-- The mutable outside world: temporary files currently on disk, and the
log of collaborator invocations. -/
structure World where
  tempFiles : List String
  events : List Event
deriving DecidableEq

/-- Append an event to the log. -/
def logEvent (w : World) (e : Event) : World :=
  { w with events := w.events ++ [e] }

/-- The drive layer as seen from the extractors: `download_file` and
`export_google_doc`.  A `.error` models a raised exception, `.ok none`
models the `None` these wrappers return on failure, `.ok (some b)` a
`BytesIO` holding `b` (truthy even when `b` is empty). -/
structure DriveClient where
  download : Option String → Except PyErr (Option Bytes)
  exportDoc : Option String → String → Except PyErr (Option Bytes)

/-- Invoke `download_file`, recording the call. -/
def runDownload (client : DriveClient) (fid : Option String) (w : World) :
    Except PyErr (Option Bytes) × World :=
  (client.download fid, logEvent w (Event.download fid))

/-- Invoke `export_google_doc`, recording the call. -/
def runExport (client : DriveClient) (fid : Option String) (mime : String)
    (w : World) : Except PyErr (Option Bytes) × World :=
  (client.exportDoc fid mime, logEvent w (Event.exportFile fid mime))

/-- The third-party libraries and ambient runtime facts: availability flags
for the optional imports, the parsing behavior of `PyPDF2` (per-page
extracted texts), `python-docx` (paragraph texts), `python-pptx` (per
slide, the texts of the shapes exposing a `text` attribute, in order),
`BeautifulSoup`, the fresh name `NamedTemporaryFile` picks, whether
`os.unlink` raises, and the summarizer. -/
structure Env where
  docxAvailable : Bool
  pptxAvailable : Bool
  bs4Available : Bool
  pdfParse : Bytes → Except PyErr (List PyStr)
  docxParse : Bytes → Except PyErr (List PyStr)
  pptxParse : Bytes → Except PyErr (List (List PyStr))
  parseHtml : PyStr → HtmlForest
  tempName : String
  unlinkFails : Bool
  summarize : PyStr → Summary

/-! ## Bracketed failure strings -/

/-- The string `f"[Error extracting <action>: <detail>]"`. -/
def errExtract (action : String) (e : PyErr) : PyStr :=
  str ("[Error extracting " ++ action ++ ": ") ++ e ++ [']']

/-- The string `f"[Content extraction not supported for file type: <mime_type>]"`. -/
def unsupportedMarker (mime : String) : PyStr :=
  str "[Content extraction not supported for file type: " ++ mime.data ++ [']']

/-- The message of the `UnicodeDecodeError` raised by strict decoding. -/
def utf8ErrMsg : PyErr := str "invalid utf-8 byte sequence"

/-! ## Extractors (src/extractors.py) -/

/-- Models `extract_google_doc`: export as `text/plain`, strict-decode;
exceptions become a bracketed error string. -/
def extract_google_doc (client : DriveClient) (fid : Option String)
    (w : World) : PyStr × World :=
  let (r, w1) := runExport client fid "text/plain" w
  match r with
  | .error e => (errExtract "Google Doc" e, w1)
  | .ok none => ([], w1)
  | .ok (some b) =>
    match utf8Decode b with
    | some cs => (cs, w1)
    | none => (errExtract "Google Doc" utf8ErrMsg, w1)

/-- Models `extract_google_sheet`: export as `text/csv`, strict-decode. -/
def extract_google_sheet (client : DriveClient) (fid : Option String)
    (w : World) : PyStr × World :=
  let (r, w1) := runExport client fid "text/csv" w
  match r with
  | .error e => (errExtract "Google Sheet" e, w1)
  | .ok none => ([], w1)
  | .ok (some b) =>
    match utf8Decode b with
    | some cs => (cs, w1)
    | none => (errExtract "Google Sheet" utf8ErrMsg, w1)

/-- Models `extract_text_from_pdf_bytes`: accumulate `page.extract_text() + "\n\n"`
over the pages; a parse failure yields the bracketed error string. -/
def extract_text_from_pdf_bytes (env : Env) (b : Bytes) : PyStr :=
  match env.pdfParse b with
  | .ok pages => pages.foldl (fun acc p => acc ++ p ++ nl2) []
  | .error e => errExtract "PDF content" e

/-- Models `extract_google_slides`: export as `text/plain`; only when that export
returns `None` (a `BytesIO` is truthy even when empty), fall back to a PDF
export run through the PDF byte extractor. -/
def extract_google_slides (env : Env) (client : DriveClient)
    (fid : Option String) (w : World) : PyStr × World :=
  let (r, w1) := runExport client fid "text/plain" w
  match r with
  | .error e => (errExtract "Google Slides" e, w1)
  | .ok (some b) =>
    match utf8Decode b with
    | some cs => (cs, w1)
    | none => (errExtract "Google Slides" utf8ErrMsg, w1)
  | .ok none =>
    let (r2, w2) := runExport client fid "application/pdf" w1
    match r2 with
    | .error e => (errExtract "Google Slides" e, w2)
    | .ok (some pb) => (extract_text_from_pdf_bytes env pb, w2)
    | .ok none => ([], w2)

/-- Models `extract_pdf`: download raw bytes, run the PDF byte extractor. -/
def extract_pdf (env : Env) (client : DriveClient) (fid : Option String)
    (w : World) : PyStr × World :=
  let (r, w1) := runDownload client fid w
  match r with
  | .error e => (errExtract "PDF" e, w1)
  | .ok none => ([], w1)
  | .ok (some b) => (extract_text_from_pdf_bytes env b, w1)

/-- Models `extract_docx`: download, write to a temporary file, parse paragraphs,
then `os.unlink` wrapped in `try/except: pass`.  The unlink statement sits
on the success path only: a parse exception jumps to the handler without
removing the file. -/
def extract_docx (env : Env) (client : DriveClient) (fid : Option String)
    (w : World) : PyStr × World :=
  if env.docxAvailable = false then
    (str "[python-docx library not installed. Cannot extract DOCX content.]", w)
  else
    let (r, w1) := runDownload client fid w
    match r with
    | .error e => (errExtract "DOCX" e, w1)
    | .ok none => ([], w1)
    | .ok (some b) =>
      let w2 := { w1 with tempFiles := w1.tempFiles ++ [env.tempName] }
      match env.docxParse b with
      | .error e => (errExtract "DOCX" e, w2)
      | .ok paras =>
        let w3 :=
          if env.unlinkFails then w2
          else { w2 with tempFiles := w2.tempFiles.erase env.tempName }
        (joinSep nl1 paras, w3)

/-- Models `extract_pptx`: download, write to a temporary file, collect per slide
the texts of the shapes exposing `text`, keep only slides whose collected
list is non-empty (`if slide_text:`), join shapes with `"\n"` and slides
with `"\n\n"`; unlink as in `extract_docx`. -/
def extract_pptx (env : Env) (client : DriveClient) (fid : Option String)
    (w : World) : PyStr × World :=
  if env.pptxAvailable = false then
    (str "[python-pptx library not installed. Cannot extract PPTX content.]", w)
  else
    let (r, w1) := runDownload client fid w
    match r with
    | .error e => (errExtract "PPTX" e, w1)
    | .ok none => ([], w1)
    | .ok (some b) =>
      let w2 := { w1 with tempFiles := w1.tempFiles ++ [env.tempName] }
      match env.pptxParse b with
      | .error e => (errExtract "PPTX" e, w2)
      | .ok slides =>
        let fullText := (slides.filter (fun s => !s.isEmpty)).map
          (fun s => joinSep nl1 s)
        let w3 :=
          if env.unlinkFails then w2
          else { w2 with tempFiles := w2.tempFiles.erase env.tempName }
        (joinSep nl2 fullText, w3)

/-- Models `extract_text_file`: download and decode permissively. -/
def extract_text_file (client : DriveClient) (fid : Option String)
    (w : World) : PyStr × World :=
  let (r, w1) := runDownload client fid w
  match r with
  | .error e => (errExtract "text file" e, w1)
  | .ok none => ([], w1)
  | .ok (some b) => (decodeReplace b, w1)

/-- The pure part of `extract_html` after a successful download: decode
permissively, parse, drop `script`/`style` subtrees, `get_text`, strip
each line, split lines on double spaces, strip the phrases, drop empty
chunks and rejoin with `"\n"`. -/
def htmlPipeline (env : Env) (b : Bytes) : PyStr :=
  let text := getTextF (removeSSF (env.parseHtml (decodeReplace b)))
  let lines := (splitOnChar '\n' text).map pyStrip
  let chunks := (lines.map (fun line => (splitTwoSp line).map pyStrip)).flatten
  joinSep nl1 (chunks.filter (fun c => !c.isEmpty))

/-- Models `extract_html`: download, then run the BeautifulSoup pipeline. -/
def extract_html (env : Env) (client : DriveClient) (fid : Option String)
    (w : World) : PyStr × World :=
  if env.bs4Available = false then
    (str "[BeautifulSoup4 library not installed. Cannot extract HTML content.]", w)
  else
    let (r, w1) := runDownload client fid w
    match r with
    | .error e => (errExtract "HTML" e, w1)
    | .ok none => ([], w1)
    | .ok (some b) => (htmlPipeline env b, w1)

/-- Models `extract_file_content`: dispatch on the MIME type through the `elif`
chain; unknown tags yield the unsupported marker without touching the
drive client. -/
def extract_file_content (env : Env) (client : DriveClient) (fi : FileInfo)
    (w : World) : PyStr × World :=
  if fi.mimeType = "application/vnd.google-apps.document" then
    extract_google_doc client fi.id w
  else if fi.mimeType = "application/vnd.google-apps.spreadsheet" then
    extract_google_sheet client fi.id w
  else if fi.mimeType = "application/vnd.google-apps.presentation" then
    extract_google_slides env client fi.id w
  else if fi.mimeType = "application/pdf" then
    extract_pdf env client fi.id w
  else if fi.mimeType = "application/vnd.openxmlformats-officedocument.wordprocessingml.document" then
    extract_docx env client fi.id w
  else if fi.mimeType = "application/vnd.openxmlformats-officedocument.presentationml.presentation" then
    extract_pptx env client fi.id w
  else if fi.mimeType = "text/plain" then
    extract_text_file client fi.id w
  else if fi.mimeType = "text/html" then
    extract_html env client fi.id w
  else if fi.mimeType = "text/markdown" then
    extract_text_file client fi.id w
  else
    (unsupportedMarker fi.mimeType, w)

/-- The MIME types the `elif` chain recognizes. -/
def supportedMimes : List String :=
  ["application/vnd.google-apps.document",
   "application/vnd.google-apps.spreadsheet",
   "application/vnd.google-apps.presentation",
   "application/pdf",
   "application/vnd.openxmlformats-officedocument.wordprocessingml.document",
   "application/vnd.openxmlformats-officedocument.presentationml.presentation",
   "text/plain",
   "text/html",
   "text/markdown"]

/-! ## The per-file processing loop (src/main.py) -/

/-- The `for file_info in files` loop of `main`: extract, and when the
content is truthy and strips to something non-empty, summarize (recorded
as a collaborator call) and append the document entry; otherwise skip.
`generate_content_summary` returns a dictionary on every path (its body is
wrapped in `try/except`), so the summarizer is modelled total. -/
def processFiles (env : Env) (client : DriveClient) :
    List FileInfo → World → List DocumentRecord × World
  | [], w => ([], w)
  | fi :: rest, w =>
    let r := extract_file_content env client fi w
    if r.1 ≠ [] ∧ pyStrip r.1 ≠ [] then
      let s := processFiles env client rest
        (logEvent r.2 (Event.summarizeCall r.1))
      (⟨fi, env.summarize r.1, r.1⟩ :: s.1, s.2)
    else
      processFiles env client rest r.2

/-! ## Outcome predicates -/

/-- A bracketed failure marker: opens with `[` and closes with `]`. -/
def Bracketed (s : PyStr) : Prop :=
  s.head? = some '[' ∧ s.getLast? = some ']'

/-- Every `f"[Error extracting ...]"` string is bracketed. -/
theorem bracketed_errExtract (a : String) (e : PyErr) :
    Bracketed (errExtract a e) := by
  constructor
  · show (str ("[Error extracting " ++ a ++ ": ") ++ e ++ [']']).head? = some '['
    simp only [str, String.data_append]
    rfl
  · show ((str ("[Error extracting " ++ a ++ ": ") ++ e) ++ [']']).getLast? = some ']'
    simp [List.getLast?_concat]

/-- The unsupported-type marker is bracketed. -/
theorem bracketed_unsupportedMarker (m : String) :
    Bracketed (unsupportedMarker m) := by
  constructor
  · rfl
  · show ((str "[Content extraction not supported for file type: " ++ m.data) ++ [']']).getLast? = some ']'
    simp [List.getLast?_concat]

/-! ## Concrete instances used by witnesses -/

/-- The initial world: no temporary files, empty call log. -/
def w0 : World := ⟨[], []⟩

/-- A drive client whose fetches all return `None`. -/
def clientNone : DriveClient := ⟨fun _ => .ok none, fun _ _ => .ok none⟩

/-- A trivial environment: all optional libraries available, every parser
fails, the parsed HTML document is empty. -/
def envTriv : Env :=
  ⟨true, true, true, fun _ => .error [], fun _ => .error [],
   fun _ => .error [], fun _ => HtmlForest.nil, "t", false,
   fun _ => ⟨[], []⟩⟩

/-! ## C7: unsupported type tags -/

/-- C7.  A MIME type outside the dispatch table yields exactly the literal
`[Content extraction not supported for file type: <tag>]` marker with the
offending tag interpolated, and the world is untouched: no download or
export is invoked (no event is recorded) for any drive client. -/
theorem dispatch_unsupported (env : Env) (client : DriveClient)
    (fi : FileInfo) (w : World) (h : fi.mimeType ∉ supportedMimes) :
    extract_file_content env client fi w = (unsupportedMarker fi.mimeType, w) := by
  simp only [supportedMimes, List.mem_cons, List.not_mem_nil, or_false,
    not_or] at h
  obtain ⟨h1, h2, h3, h4, h5, h6, h7, h8, h9⟩ := h
  rw [extract_file_content, if_neg h1, if_neg h2, if_neg h3, if_neg h4,
    if_neg h5, if_neg h6, if_neg h7, if_neg h8, if_neg h9]

/-- C7 witness: a concrete `image/png` descriptor is rejected with the
literal marker and the world (hence the call log) is unchanged. -/
theorem dispatch_unsupported_witness :
    ("image/png" ∉ supportedMimes) ∧
    extract_file_content envTriv clientNone
      ⟨some "f1", "pic", "image/png"⟩ w0 =
      (unsupportedMarker "image/png", w0) := by
  refine ⟨by decide, ?_⟩
  exact dispatch_unsupported envTriv clientNone
    ⟨some "f1", "pic", "image/png"⟩ w0 (by decide)

/-! ## C6: a fetch returning None yields the empty string -/

/-- C6.  When the drive layer returns `None` for every download and export
(a failed fetch), each extractor returns the empty string — not a
bracketed failure marker — provided the optional library a format needs is
available.  For Google Slides both export attempts return `None`, so the
fallback also yields the empty string. -/
theorem fetch_none_empty (env : Env) (client : DriveClient)
    (hd : ∀ fid, client.download fid = .ok none)
    (he : ∀ fid m, client.exportDoc fid m = .ok none)
    (hdocx : env.docxAvailable = true) (hpptx : env.pptxAvailable = true)
    (hbs4 : env.bs4Available = true) (fid : Option String) (w : World) :
    (extract_google_doc client fid w).1 = [] ∧
    (extract_google_sheet client fid w).1 = [] ∧
    (extract_google_slides env client fid w).1 = [] ∧
    (extract_pdf env client fid w).1 = [] ∧
    (extract_docx env client fid w).1 = [] ∧
    (extract_pptx env client fid w).1 = [] ∧
    (extract_text_file client fid w).1 = [] ∧
    (extract_html env client fid w).1 = [] := by
  refine ⟨?_, ?_, ?_, ?_, ?_, ?_, ?_, ?_⟩ <;>
    simp [extract_google_doc, extract_google_sheet, extract_google_slides,
      extract_pdf, extract_docx, extract_pptx, extract_text_file,
      extract_html, runExport, runDownload, hd, he, hdocx, hpptx, hbs4]

/-- C6 witness: the all-`None` client with every library available makes
each extractor return the empty string. -/
theorem fetch_none_empty_witness :
    (extract_google_doc clientNone (some "f") w0).1 = [] ∧
    (extract_google_sheet clientNone (some "f") w0).1 = [] ∧
    (extract_google_slides envTriv clientNone (some "f") w0).1 = [] ∧
    (extract_pdf envTriv clientNone (some "f") w0).1 = [] ∧
    (extract_docx envTriv clientNone (some "f") w0).1 = [] ∧
    (extract_pptx envTriv clientNone (some "f") w0).1 = [] ∧
    (extract_text_file clientNone (some "f") w0).1 = [] ∧
    (extract_html envTriv clientNone (some "f") w0).1 = [] :=
  fetch_none_empty envTriv clientNone (fun _ => rfl) (fun _ _ => rfl)
    rfl rfl rfl (some "f") w0

/-! ## C10: strict decoding of Workspace exports vs permissive text/HTML -/

/-- C10.  When an exported payload is not valid UTF-8 (strict decoding
fails), the Google Doc, Google Sheet and Google Slides text-export paths
each return the bracketed `[Error extracting ...]` failure string; on the
very same invalid payload the plain-text extractor returns the permissive
replacement decoding and the HTML extractor feeds that permissive decoding
to its pipeline — neither ever fails on decoding. -/
theorem strict_decode_contrast (env : Env) (client : DriveClient)
    (fid : Option String) (w : World) (b : Bytes)
    (hp : client.exportDoc fid "text/plain" = .ok (some b))
    (hc : client.exportDoc fid "text/csv" = .ok (some b))
    (hdl : client.download fid = .ok (some b))
    (hbad : utf8Decode b = none) (hbs4 : env.bs4Available = true) :
    (extract_google_doc client fid w).1 = errExtract "Google Doc" utf8ErrMsg ∧
    (extract_google_sheet client fid w).1 = errExtract "Google Sheet" utf8ErrMsg ∧
    (extract_google_slides env client fid w).1 =
      errExtract "Google Slides" utf8ErrMsg ∧
    Bracketed (extract_google_doc client fid w).1 ∧
    (extract_text_file client fid w).1 = decodeReplace b ∧
    (extract_html env client fid w).1 = htmlPipeline env b := by
  refine ⟨?_, ?_, ?_, ?_, ?_, ?_⟩ <;>
    simp [extract_google_doc, extract_google_sheet, extract_google_slides,
      extract_text_file, extract_html, runExport, runDownload, hp, hc, hdl,
      hbad, hbs4, bracketed_errExtract]

/-- C10 witness: the single byte `0xFF` is invalid UTF-8; the Workspace
export extractors fail with a bracketed error while the plain-text
extractor returns one replacement character. -/
theorem strict_decode_contrast_witness :
    utf8Decode [0xFF] = none ∧
    (extract_google_doc ⟨fun _ => .ok (some [0xFF]), fun _ _ => .ok (some [0xFF])⟩
      (some "f") w0).1 = errExtract "Google Doc" utf8ErrMsg ∧
    (extract_text_file ⟨fun _ => .ok (some [0xFF]), fun _ _ => .ok (some [0xFF])⟩
      (some "f") w0).1 = [replChar] := by
  have h := strict_decode_contrast envTriv
    ⟨fun _ => .ok (some [0xFF]), fun _ _ => .ok (some [0xFF])⟩
    (some "f") w0 [0xFF] rfl rfl rfl (by decide) rfl
  exact ⟨by decide, h.1, h.2.2.2.2.1.trans (by decide)⟩

/-! ## List lemmas for join, startsList and occursB -/

theorem joinSep_cons (sep : List Char) (p : List Char) (l : List (List Char))
    (h : l ≠ []) : joinSep sep (p :: l) = p ++ sep ++ joinSep sep l := by
  cases l with
  | nil => exact absurd rfl h
  | cons q qs => rfl

theorem flatten_map_eq_joinSep (sep : List Char) (pages : List (List Char)) :
    ((pages.map (fun p => p ++ sep)).flatten : List Char) =
      joinSep sep (pages ++ [[]]) := by
  induction pages with
  | nil => rfl
  | cons p ps ih =>
    have hne : ps ++ [([] : List Char)] ≠ [] := by simp
    simp only [List.map_cons, List.flatten_cons, ih, List.cons_append,
      joinSep_cons sep p (ps ++ [[]]) hne, List.append_assoc]

theorem foldl_append_eq_flatten (sep : List Char) (pages : List (List Char))
    (acc : List Char) :
    pages.foldl (fun a p => a ++ p ++ sep) acc =
      acc ++ (pages.map (fun p => p ++ sep)).flatten := by
  induction pages generalizing acc with
  | nil => simp
  | cons p ps ih =>
    rw [List.foldl_cons, ih]
    simp [List.append_assoc]

theorem startsList_append_of_left (pat l m : List Char)
    (h : startsList pat l = true) : startsList pat (l ++ m) = true := by
  induction pat generalizing l with
  | nil => rfl
  | cons p ps ih =>
    cases l with
    | nil => exact absurd h (by simp [startsList])
    | cons a as =>
      simp only [startsList, Bool.and_eq_true, beq_iff_eq] at h
      simp only [List.cons_append, startsList, Bool.and_eq_true, beq_iff_eq]
      exact ⟨h.1, ih as h.2⟩

theorem occursB_nil_pat (m : List Char) : occursB [] m = true := by
  cases m <;> rfl

theorem occursB_append_of_left (pat l m : List Char)
    (h : occursB pat l = true) : occursB pat (l ++ m) = true := by
  induction l with
  | nil =>
    simp only [occursB, List.isEmpty_iff] at h
    subst h
    exact occursB_nil_pat m
  | cons a as ih =>
    simp only [occursB, Bool.or_eq_true] at h
    rcases h with h | h
    · simp only [List.cons_append, occursB, Bool.or_eq_true]
      exact Or.inl (by
        have := startsList_append_of_left pat (a :: as) m h
        simpa using this)
    · simp only [List.cons_append, occursB, Bool.or_eq_true]
      exact Or.inr (ih h)

theorem occursB_append_of_right (pat l m : List Char)
    (h : occursB pat m = true) : occursB pat (l ++ m) = true := by
  induction l with
  | nil => simpa using h
  | cons a as ih =>
    simp only [List.cons_append, occursB, Bool.or_eq_true]
    exact Or.inr ih

/-- On a successful parse, the PDF byte extractor produces the page texts
each followed by the `"\n\n"` separator. -/
theorem extract_pdf_bytes_ok (env : Env) (b : Bytes) (pages : List PyStr)
    (hok : env.pdfParse b = .ok pages) :
    extract_text_from_pdf_bytes env b = joinSep nl2 (pages ++ [[]]) := by
  simp only [extract_text_from_pdf_bytes, hok]
  rw [foldl_append_eq_flatten, flatten_map_eq_joinSep, List.nil_append]

/-! ## C4: the PDF byte extractor -/

/-- C4.  For a parsable PDF payload the extractor returns the page texts
joined by the blank-line separator (each page's text is followed by
`"\n\n"`, i.e. the concatenation equals the pages — empty page texts
included, as empty segments, never as failures — interleaved with blank
lines, with a trailing separator); for an unparsable payload it returns a
string that starts with `[Error extracting`, contains `PDF`, and is
bracketed. -/
theorem pdf_bytes_extractor_spec (env : Env) (b : Bytes) :
    (∀ pages, env.pdfParse b = .ok pages →
      extract_text_from_pdf_bytes env b = joinSep nl2 (pages ++ [[]])) ∧
    (∀ e, env.pdfParse b = .error e →
      startsList (str "[Error extracting")
          (extract_text_from_pdf_bytes env b) = true ∧
        occursB (str "PDF") (extract_text_from_pdf_bytes env b) = true ∧
        Bracketed (extract_text_from_pdf_bytes env b)) := by
  constructor
  · exact fun pages hok => extract_pdf_bytes_ok env b pages hok
  · intro e herr
    simp only [extract_text_from_pdf_bytes, herr]
    refine ⟨?_, ?_, bracketed_errExtract _ _⟩
    · show startsList (str "[Error extracting")
        (str ("[Error extracting " ++ "PDF content" ++ ": ") ++ e ++ [']']) = true
      simp only [str, String.data_append, List.append_assoc]
      exact startsList_append_of_left _ _ _ (by decide)
    · show occursB (str "PDF")
        (str ("[Error extracting " ++ "PDF content" ++ ": ") ++ e ++ [']']) = true
      simp only [str, String.data_append, List.append_assoc]
      exact occursB_append_of_right _ _ _
        (occursB_append_of_left _ _ _ (by decide))

/-- C4 witness: a three-page document with an empty middle page yields
`"a\n\n\n\nb\n\n"`; a failing parse yields the bracketed PDF error. -/
theorem pdf_bytes_extractor_spec_witness :
    extract_text_from_pdf_bytes
        { envTriv with pdfParse := fun _ => .ok [str "a", [], str "b"] } [0] =
      str "a" ++ nl2 ++ nl2 ++ str "b" ++ nl2 ∧
    startsList (str "[Error extracting")
      (extract_text_from_pdf_bytes
        { envTriv with pdfParse := fun _ => .error (str "bad") } [0]) = true ∧
    occursB (str "PDF")
      (extract_text_from_pdf_bytes
        { envTriv with pdfParse := fun _ => .error (str "bad") } [0]) = true := by
  have h1 := (pdf_bytes_extractor_spec
    { envTriv with pdfParse := fun _ => .ok [str "a", [], str "b"] } [0]).1
    [str "a", [], str "b"] rfl
  have h2 := (pdf_bytes_extractor_spec
    { envTriv with pdfParse := fun _ => .error (str "bad") } [0]).2
    (str "bad") rfl
  exact ⟨h1.trans (by decide), h2.1, h2.2.1⟩

/-! ## C8: the presentation extractor -/

/-- C8.  For a parsable PPTX payload the result joins each slide's
text-bearing shape texts with `"\n"`, joins the surviving slides with a
blank line, and drops slides with no text-bearing shapes entirely (the
`if slide_text:` guard): they are not represented as empty segments.  In
particular three slides whose middle slide has no text-bearing shapes
yield exactly the two non-empty segments `a` and `c`. -/
theorem pptx_extractor_spec (env : Env) (client : DriveClient)
    (fid : Option String) (w : World) (b : Bytes)
    (slides : List (List PyStr)) (havail : env.pptxAvailable = true)
    (hdl : client.download fid = .ok (some b))
    (hparse : env.pptxParse b = .ok slides) :
    (extract_pptx env client fid w).1 =
      joinSep nl2 ((slides.filter (fun s => !s.isEmpty)).map
        (fun s => joinSep nl1 s)) ∧
    (∀ a c : PyStr, slides = [[a], [], [c]] → a ≠ [] → c ≠ [] →
      (extract_pptx env client fid w).1 = a ++ nl2 ++ c) := by
  have hmain : (extract_pptx env client fid w).1 =
      joinSep nl2 ((slides.filter (fun s => !s.isEmpty)).map
        (fun s => joinSep nl1 s)) := by
    simp [extract_pptx, runDownload, havail, hdl, hparse]
  refine ⟨hmain, ?_⟩
  intro a c hs _ _
  subst hs
  rw [hmain]
  simp [joinSep, List.isEmpty]

/-- C8 witness: slides `[["x"], [], ["y"]]` yield `"x\n\ny"` — two
non-empty segments, the empty middle slide omitted. -/
theorem pptx_extractor_spec_witness :
    (extract_pptx
      { envTriv with pptxParse := fun _ => .ok [[str "x"], [], [str "y"]] }
      ⟨fun _ => .ok (some [0]), fun _ _ => .ok none⟩
      (some "f") w0).1 = str "x" ++ nl2 ++ str "y" := by
  have h := (pptx_extractor_spec
    { envTriv with pptxParse := fun _ => .ok [[str "x"], [], [str "y"]] }
    ⟨fun _ => .ok (some [0]), fun _ _ => .ok none⟩
    (some "f") w0 [0] [[str "x"], [], [str "y"]] rfl rfl rfl).2
    (str "x") (str "y") rfl (by decide) (by decide)
  exact h

/-! ## C2: temporary-file lifecycle in the DOCX and PPTX extractors -/

theorem erase_append_singleton {α : Type} [DecidableEq α] (l : List α)
    (a : α) (h : a ∉ l) : (l ++ [a]).erase a = l := by
  induction l with
  | nil => simp
  | cons x xs ih =>
    have hxa : ¬(x = a) := fun hx => h (hx ▸ List.mem_cons_self x xs)
    have hxs : a ∉ xs := fun hx => h (List.mem_cons_of_mem x hx)
    simp only [List.cons_append, List.erase_cons]
    rw [if_neg (by simpa using hxa), ih hxs]

/-- C2 counterexample.  With a `python-docx` parse that raises, the DOCX
extractor returns the bracketed error but the temporary file `t1` is still
on disk when it returns: the `os.unlink` sits after the parse inside the
`try`, so the parse-exception exit path never reaches it. -/
theorem temp_file_leak_counterexample :
    letI env : Env := { envTriv with
      docxParse := fun _ => .error (str "bad"), tempName := "t1" }
    letI client : DriveClient :=
      ⟨fun _ => .ok (some [1]), fun _ _ => .ok none⟩
    "t1" ∈ (extract_docx env client (some "f") w0).2.tempFiles ∧
      (extract_docx env client (some "f") w0).1 =
        errExtract "DOCX" (str "bad") := by
  constructor
  · decide
  · decide

/-- C2 amended.  The temporary file is removed on the success exit path
when `os.unlink` succeeds; when the unlink itself raises, the failure is
swallowed (the joined text is still returned) and the file remains; and on
an exception raised during library parsing the extractor returns the
bracketed error *without* removing the temporary file — for both the DOCX
and the PPTX extractor. -/
theorem temp_file_lifecycle (env : Env) (client : DriveClient)
    (fid : Option String) (w : World) (b : Bytes)
    (hdx : env.docxAvailable = true) (hpx : env.pptxAvailable = true)
    (hfresh : env.tempName ∉ w.tempFiles)
    (hdl : client.download fid = .ok (some b)) :
    ((∀ paras, env.docxParse b = .ok paras →
        (extract_docx env client fid w).1 = joinSep nl1 paras ∧
        (extract_docx env client fid w).2.tempFiles =
          (if env.unlinkFails then w.tempFiles ++ [env.tempName]
           else w.tempFiles)) ∧
      (∀ e, env.docxParse b = .error e →
        (extract_docx env client fid w).1 = errExtract "DOCX" e ∧
        env.tempName ∈ (extract_docx env client fid w).2.tempFiles)) ∧
    ((∀ slides, env.pptxParse b = .ok slides →
        (extract_pptx env client fid w).1 =
          joinSep nl2 ((slides.filter (fun s => !s.isEmpty)).map
            (fun s => joinSep nl1 s)) ∧
        (extract_pptx env client fid w).2.tempFiles =
          (if env.unlinkFails then w.tempFiles ++ [env.tempName]
           else w.tempFiles)) ∧
      (∀ e, env.pptxParse b = .error e →
        (extract_pptx env client fid w).1 = errExtract "PPTX" e ∧
        env.tempName ∈ (extract_pptx env client fid w).2.tempFiles)) := by
  refine ⟨⟨?_, ?_⟩, ⟨?_, ?_⟩⟩
  · intro paras hok
    cases hu : env.unlinkFails <;>
      simp [extract_docx, runDownload, logEvent, hdx, hdl, hok, hu,
        erase_append_singleton _ _ hfresh]
  · intro e herr
    simp [extract_docx, runDownload, logEvent, hdx, hdl, herr]
  · intro slides hok
    cases hu : env.unlinkFails <;>
      simp [extract_pptx, runDownload, logEvent, hpx, hdl, hok, hu,
        erase_append_singleton _ _ hfresh]
  · intro e herr
    simp [extract_pptx, runDownload, logEvent, hpx, hdl, herr]

/-- C2 witness: on a successful parse with a working unlink, the DOCX
extractor returns the joined paragraphs and leaves no temporary file. -/
theorem temp_file_lifecycle_witness :
    (extract_docx { envTriv with docxParse := fun _ => .ok [str "p"] }
      ⟨fun _ => .ok (some [1]), fun _ _ => .ok none⟩ (some "f") w0).1 =
        str "p" ∧
    (extract_docx { envTriv with docxParse := fun _ => .ok [str "p"] }
      ⟨fun _ => .ok (some [1]), fun _ _ => .ok none⟩ (some "f") w0).2.tempFiles
      = [] := by
  have h := ((temp_file_lifecycle
    { envTriv with docxParse := fun _ => .ok [str "p"] }
    ⟨fun _ => .ok (some [1]), fun _ _ => .ok none⟩ (some "f") w0 [1]
    rfl rfl (by decide) rfl).1).1 [str "p"] rfl
  exact ⟨h.1.trans (by decide), h.2.trans (by decide)⟩

/-! ## C3: the Google Slides fallback trigger -/

/-- C3 counterexample.  The first export yields an *empty but present*
payload (a truthy `BytesIO` over zero bytes); a PDF export would have
produced `"hello\n\n"`, but the extractor returns the empty string and the
PDF export is never invoked: an empty first export does **not** trigger
the fallback (only `None` does, since `if content:` is true for every
`BytesIO`). -/
theorem slides_fallback_counterexample :
    letI env : Env := { envTriv with pdfParse := fun _ => .ok [str "hello"] }
    letI client : DriveClient :=
      ⟨fun _ => .ok none,
       fun _ m => if m = "text/plain" then .ok (some []) else .ok (some [7])⟩
    (extract_google_slides env client (some "f") w0).1 = [] ∧
      extract_text_from_pdf_bytes env [7] = str "hello" ++ nl2 ∧
      ([] : PyStr) ≠ str "hello" ++ nl2 ∧
      Event.exportFile (some "f") "application/pdf" ∉
        (extract_google_slides env client (some "f") w0).2.events := by
  exact ⟨by decide, by decide, by decide, by decide⟩

/-- C3 amended.  The fallback (export as PDF, then the PDF byte extractor)
is triggered exactly when the plain-text export returns `None`; when that
export returns a payload — even an empty one — the extractor answers from
it alone (an empty payload decodes to the empty string) and the PDF export
is never invoked. -/
theorem slides_fallback_spec (env : Env) (client : DriveClient)
    (fid : Option String) (w : World) :
    (client.exportDoc fid "text/plain" = .ok none →
      extract_google_slides env client fid w =
        ((match client.exportDoc fid "application/pdf" with
          | .error e => errExtract "Google Slides" e
          | .ok (some pb) => extract_text_from_pdf_bytes env pb
          | .ok none => []),
         { w with events := w.events ++
            [Event.exportFile fid "text/plain",
             Event.exportFile fid "application/pdf"] })) ∧
    (∀ b, client.exportDoc fid "text/plain" = .ok (some b) →
      (extract_google_slides env client fid w).2.events =
        w.events ++ [Event.exportFile fid "text/plain"] ∧
      (b = [] → (extract_google_slides env client fid w).1 = [])) := by
  constructor
  · intro h
    rcases h2 : client.exportDoc fid "application/pdf" with e | ob
    · simp [extract_google_slides, runExport, logEvent, h, h2,
        List.append_assoc]
    · rcases ob with _ | pb <;>
        simp [extract_google_slides, runExport, logEvent, h, h2,
          List.append_assoc]
  · intro b hb
    constructor
    · rcases hd : utf8Decode b with _ | cs <;>
        simp [extract_google_slides, runExport, logEvent, hb, hd]
    · intro hbe
      subst hbe
      simp [extract_google_slides, runExport, logEvent, hb]
      rfl

/-- C3 amended witness: with a `None` plain-text export and a present PDF
export parsing to one page `"hi"`, the extractor returns `"hi\n\n"` and
both export calls are recorded. -/
theorem slides_fallback_spec_witness :
    (extract_google_slides { envTriv with pdfParse := fun _ => .ok [str "hi"] }
      ⟨fun _ => .ok none,
       fun _ m => if m = "text/plain" then .ok none else .ok (some [7])⟩
      (some "f") w0).1 = str "hi" ++ nl2 := by
  have h := (slides_fallback_spec
    { envTriv with pdfParse := fun _ => .ok [str "hi"] }
    ⟨fun _ => .ok none,
     fun _ m => if m = "text/plain" then .ok none else .ok (some [7])⟩
    (some "f") w0).1 rfl
  rw [h]
  decide

/-! ## Substring machinery for the HTML extractor -/

/-- Says that `l` has `pat` as a propositional initial segment. -/
def PrefOf (pat l : List Char) : Prop := ∃ t, l = pat ++ t

/-- Says that `pat` occurs contiguously inside `l` (propositional `occursB`). -/
def OccIn (pat l : List Char) : Prop := ∃ s t, l = s ++ pat ++ t

theorem startsList_iff (pat l : List Char) :
    startsList pat l = true ↔ PrefOf pat l := by
  induction pat generalizing l with
  | nil => simp [startsList, PrefOf]
  | cons p ps ih =>
    cases l with
    | nil =>
      simp [startsList, PrefOf]
    | cons a as =>
      simp only [startsList, Bool.and_eq_true, beq_iff_eq, ih, PrefOf,
        List.cons_append, List.cons.injEq]
      constructor
      · rintro ⟨rfl, t, rfl⟩
        exact ⟨t, rfl, rfl⟩
      · rintro ⟨t, rfl, rfl⟩
        exact ⟨rfl, t, rfl⟩

theorem occursB_iff (pat l : List Char) :
    occursB pat l = true ↔ OccIn pat l := by
  induction l with
  | nil =>
    simp only [occursB, List.isEmpty_iff, OccIn]
    constructor
    · rintro rfl
      exact ⟨[], [], rfl⟩
    · rintro ⟨s, t, h⟩
      exact (List.append_eq_nil.1 (List.append_eq_nil.1 h.symm).1).2
  | cons a as ih =>
    simp only [occursB, Bool.or_eq_true, startsList_iff, ih, PrefOf, OccIn]
    constructor
    · rintro (⟨t, h⟩ | ⟨s, t, h⟩)
      · exact ⟨[], t, by simpa using h⟩
      · exact ⟨a :: s, t, by simp [h]⟩
    · rintro ⟨s, t, h⟩
      cases s with
      | nil => exact Or.inl ⟨t, by simpa using h⟩
      | cons a' s' =>
        rw [List.cons_append, List.cons_append] at h
        injection h with h1 h2
        exact Or.inr ⟨s', t, h2⟩

theorem occIn_trans {a b c : List Char} (h1 : OccIn a b) (h2 : OccIn b c) :
    OccIn a c := by
  obtain ⟨s, t, rfl⟩ := h1
  obtain ⟨u, v, rfl⟩ := h2
  exact ⟨u ++ s, t ++ v, by simp [List.append_assoc]⟩

theorem prefOf_append_cons {pat : List Char} {c : Char} (hc : c ∉ pat) :
    ∀ xs ys, PrefOf pat (xs ++ c :: ys) → PrefOf pat xs := by
  induction pat with
  | nil => exact fun xs ys _ => ⟨xs, rfl⟩
  | cons p pt ih =>
    intro xs ys h
    obtain ⟨t, ht⟩ := h
    cases xs with
    | nil =>
      rw [List.nil_append, List.cons_append] at ht
      injection ht with h1 h2
      exact absurd (h1 ▸ List.mem_cons_self p pt) hc
    | cons x xt =>
      rw [List.cons_append, List.cons_append] at ht
      injection ht with h1 h2
      have hct : c ∉ pt := fun hm => hc (List.mem_cons_of_mem p hm)
      obtain ⟨t', ht'⟩ := ih hct xt ys ⟨t, h2⟩
      exact ⟨t', by rw [h1, List.cons_append, ht']⟩

theorem occIn_append_cons {pat : List Char} {c : Char} (hc : c ∉ pat)
    (hne : pat ≠ []) :
    ∀ xs ys, OccIn pat (xs ++ c :: ys) → OccIn pat xs ∨ OccIn pat ys := by
  intro xs
  induction xs with
  | nil =>
    intro ys h
    obtain ⟨s, t, hst⟩ := h
    cases s with
    | nil =>
      rw [List.nil_append, List.nil_append] at hst
      cases pat with
      | nil => exact absurd rfl hne
      | cons p pt =>
        rw [List.cons_append] at hst
        injection hst with h1 h2
        exact absurd (h1 ▸ List.mem_cons_self p pt) hc
    | cons a s' =>
      rw [List.nil_append, List.cons_append] at hst
      injection hst with h1 h2
      exact Or.inr ⟨s', t, h2⟩
  | cons x xt ih =>
    intro ys h
    obtain ⟨s, t, hst⟩ := h
    cases s with
    | nil =>
      rw [List.nil_append] at hst
      have hp : PrefOf pat (x :: xt ++ c :: ys) := ⟨t, by simpa using hst⟩
      obtain ⟨t', ht'⟩ := prefOf_append_cons hc (x :: xt) ys hp
      exact Or.inl ⟨[], t', by simpa using ht'⟩
    | cons a s' =>
      rw [List.cons_append, List.cons_append] at hst
      injection hst with h1 h2
      rcases ih ys ⟨s', t, h2⟩ with hl | hr
      · obtain ⟨u, v, huv⟩ := hl
        exact Or.inl ⟨x :: u, v, by rw [huv]; simp [List.append_assoc]⟩
      · exact Or.inr hr

theorem occIn_joinSep_single {pat : List Char} {c : Char} (hc : c ∉ pat)
    (hne : pat ≠ []) :
    ∀ ps, OccIn pat (joinSep [c] ps) → ∃ p ∈ ps, OccIn pat p := by
  intro ps
  induction ps with
  | nil =>
    intro h
    obtain ⟨s, t, hst⟩ := h
    exact absurd (List.append_eq_nil.1 (List.append_eq_nil.1 hst.symm).1).2 hne
  | cons p ps ih =>
    intro h
    cases ps with
    | nil => exact ⟨p, List.mem_singleton_self p, h⟩
    | cons q qs =>
      rw [joinSep_cons [c] p (q :: qs) (by simp)] at h
      have h' : OccIn pat (p ++ c :: joinSep [c] (q :: qs)) := by
        simpa [List.append_assoc] using h
      rcases occIn_append_cons hc hne p (joinSep [c] (q :: qs)) h' with hl | hr
      · exact ⟨p, List.mem_cons_self p _, hl⟩
      · obtain ⟨r, hrm, hro⟩ := ih hr
        exact ⟨r, List.mem_cons_of_mem p hrm, hro⟩

theorem occIn_of_mem_joinSep (sep : List Char) :
    ∀ (ps : List (List Char)) (p : List Char), p ∈ ps →
      OccIn p (joinSep sep ps) := by
  intro ps
  induction ps with
  | nil => intro p hp; exact absurd hp (List.not_mem_nil p)
  | cons q qs ih =>
    intro p hp
    cases qs with
    | nil =>
      rcases List.mem_singleton.1 hp with rfl
      exact ⟨[], [], by simp [joinSep]⟩
    | cons r rs =>
      rw [joinSep_cons sep q (r :: rs) (by simp)]
      rcases List.mem_cons.1 hp with rfl | hmem
      · exact ⟨[], sep ++ joinSep sep (r :: rs), by simp [List.append_assoc]⟩
      · obtain ⟨s, t, hst⟩ := ih p hmem
        exact ⟨q ++ sep ++ s, t, by simp [hst, List.append_assoc]⟩

theorem consHead_ne_nil (a : Char) (ps : List (List Char)) :
    consHead a ps ≠ [] := by
  cases ps <;> simp [consHead]

theorem joinSep_consHead (sep : List Char) (a : Char)
    (ps : List (List Char)) (h : ps ≠ []) :
    joinSep sep (consHead a ps) = a :: joinSep sep ps := by
  cases ps with
  | nil => exact absurd rfl h
  | cons p qs =>
    cases qs with
    | nil => rfl
    | cons q rs =>
      show joinSep sep ((a :: p) :: q :: rs) = _
      rw [joinSep_cons sep (a :: p) (q :: rs) (by simp),
        joinSep_cons sep p (q :: rs) (by simp)]
      simp [List.cons_append]

theorem splitOnChar_ne_nil (c : Char) (l : List Char) :
    splitOnChar c l ≠ [] := by
  cases l with
  | nil => simp [splitOnChar]
  | cons a rest =>
    rw [splitOnChar]
    split
    · simp
    · exact consHead_ne_nil a _

theorem splitTwoSp_ne_nil (l : List Char) : splitTwoSp l ≠ [] := by
  match l with
  | [] => simp [splitTwoSp]
  | [a] => simp [splitTwoSp]
  | a :: b :: rest =>
    rw [splitTwoSp]
    split
    · simp
    · exact consHead_ne_nil a _

theorem splitOnChar_join (c : Char) :
    ∀ l, joinSep [c] (splitOnChar c l) = l := by
  intro l
  induction l with
  | nil => rfl
  | cons a rest ih =>
    by_cases hac : a = c
    · subst hac
      rw [splitOnChar, if_pos rfl,
        joinSep_cons [a] [] (splitOnChar a rest) (splitOnChar_ne_nil a rest),
        ih, List.nil_append, List.singleton_append]
    · rw [splitOnChar, if_neg hac,
        joinSep_consHead [c] a (splitOnChar c rest) (splitOnChar_ne_nil c rest),
        ih]

theorem splitTwoSp_join :
    ∀ l, joinSep [' ', ' '] (splitTwoSp l) = l := by
  intro l
  induction l using splitTwoSp.induct with
  | case1 => rfl
  | case2 a => rfl
  | case3 a b rest hab ih =>
    obtain ⟨rfl, rfl⟩ := hab
    rw [splitTwoSp, if_pos ⟨rfl, rfl⟩,
      joinSep_cons [' ', ' '] [] (splitTwoSp rest) (splitTwoSp_ne_nil rest),
      ih, List.nil_append]
    rfl
  | case4 a b rest hab ih =>
    rw [splitTwoSp, if_neg hab,
      joinSep_consHead [' ', ' '] a (splitTwoSp (b :: rest))
        (splitTwoSp_ne_nil (b :: rest)),
      ih]

theorem occIn_of_mem_splitOnChar {c : Char} {l p : List Char}
    (h : p ∈ splitOnChar c l) : OccIn p l := by
  have := occIn_of_mem_joinSep [c] (splitOnChar c l) p h
  rwa [splitOnChar_join] at this

theorem occIn_of_mem_splitTwoSp {l p : List Char}
    (h : p ∈ splitTwoSp l) : OccIn p l := by
  have := occIn_of_mem_joinSep [' ', ' '] (splitTwoSp l) p h
  rwa [splitTwoSp_join] at this

theorem occIn_pyStrip (l : List Char) : OccIn (pyStrip l) l := by
  have h1 : l.takeWhile pyIsSpace ++ l.dropWhile pyIsSpace = l :=
    List.takeWhile_append_dropWhile pyIsSpace l
  set d := l.dropWhile pyIsSpace with hd
  have h2 : d.reverse.takeWhile pyIsSpace ++ d.reverse.dropWhile pyIsSpace =
      d.reverse := List.takeWhile_append_dropWhile pyIsSpace d.reverse
  have h3 : d = (d.reverse.dropWhile pyIsSpace).reverse ++
      (d.reverse.takeWhile pyIsSpace).reverse := by
    have h4 := congrArg List.reverse h2
    rw [List.reverse_append, List.reverse_reverse] at h4
    exact h4.symm
  refine ⟨l.takeWhile pyIsSpace, (d.reverse.takeWhile pyIsSpace).reverse, ?_⟩
  conv_lhs => rw [← h1, h3]
  rw [pyStrip, ← hd, List.append_assoc]

/-! ## C9: script/style content and the HTML extractor -/

/-- A parsed document holding a `script` element whose text is `alert(1)`
followed by a visible text node `vis`. -/
def scriptDoc (vis : String) : HtmlForest :=
  HtmlForest.cons
    (HtmlNode.elem "script"
      (HtmlForest.cons (HtmlNode.txt (str "alert(1)")) HtmlForest.nil))
    (HtmlForest.cons (HtmlNode.txt (str vis)) HtmlForest.nil)

/-- C9 counterexample.  An input whose parsed form contains a `script`
block with text `alert(1)` *and* an ordinary text node `alert(1)`: the
script subtree is removed, but the output still contains `alert(1)` coming
from the visible text, so "the returned string does not contain
`alert(1)`" is false for this input as stated. -/
theorem html_script_counterexample :
    occursB (str "alert(1)")
      (extract_html { envTriv with parseHtml := fun _ => scriptDoc "alert(1)" }
        ⟨fun _ => .ok (some [97]), fun _ _ => .ok none⟩
        (some "f") w0).1 = true := by
  decide

/-- C9 amended.  `script`/`style` subtrees are removed before text
extraction, so script content can reach the output only through the
remaining visible text: for any non-empty newline-free pattern — such as
`alert(1)` — that does not occur in the text remaining after subtree
removal, the pattern does not occur in the extractor's output. -/
theorem html_no_script_leak (env : Env) (client : DriveClient)
    (fid : Option String) (w : World) (b : Bytes) (pat : List Char)
    (hbs4 : env.bs4Available = true)
    (hdl : client.download fid = .ok (some b))
    (hne : pat ≠ []) (hnl : '\n' ∉ pat)
    (hvis : occursB pat
      (getTextF (removeSSF (env.parseHtml (decodeReplace b)))) = false) :
    occursB pat (extract_html env client fid w).1 = false := by
  have hres : (extract_html env client fid w).1 = htmlPipeline env b := by
    simp [extract_html, runDownload, hbs4, hdl]
  rw [hres]
  set text := getTextF (removeSSF (env.parseHtml (decodeReplace b)))
    with htext
  cases hb : occursB pat (htmlPipeline env b) with
  | false => rfl
  | true =>
    exfalso
    have hocc : OccIn pat (htmlPipeline env b) := (occursB_iff pat _).1 hb
    have hocc2 : OccIn pat (joinSep ['\n']
        ((((splitOnChar '\n' text).map pyStrip).map
          (fun line => (splitTwoSp line).map pyStrip)).flatten.filter
            (fun c => !c.isEmpty))) := by
      simpa [htmlPipeline, nl1, htext] using hocc
    obtain ⟨chunk, hcm, hco⟩ := occIn_joinSep_single hnl hne _ hocc2
    have hcm2 := List.mem_of_mem_filter hcm
    obtain ⟨gl, hglm, hcgl⟩ := List.mem_flatten.1 hcm2
    obtain ⟨line, hlm, rfl⟩ := List.mem_map.1 hglm
    obtain ⟨phrase, hpm, rfl⟩ := List.mem_map.1 hcgl
    obtain ⟨line0, hl0m, rfl⟩ := List.mem_map.1 hlm
    have o1 : OccIn pat phrase := occIn_trans hco (occIn_pyStrip phrase)
    have o2 : OccIn pat (pyStrip line0) :=
      occIn_trans o1 (occIn_of_mem_splitTwoSp hpm)
    have o3 : OccIn pat line0 := occIn_trans o2 (occIn_pyStrip line0)
    have o4 : OccIn pat text := occIn_trans o3 (occIn_of_mem_splitOnChar hl0m)
    rw [(occursB_iff pat text).2 o4] at hvis
    exact absurd hvis (by decide)

/-- C9 amended witness: a document parsing to a `script` node with text
`alert(1)` next to visible text `hi`: the pattern does not occur in the
remaining visible text, and the extractor's output does not contain it. -/
theorem html_no_script_leak_witness :
    occursB (str "alert(1)")
      (extract_html { envTriv with parseHtml := fun _ => scriptDoc "hi" }
        ⟨fun _ => .ok (some [97]), fun _ _ => .ok none⟩
        (some "f") w0).1 = false :=
  html_no_script_leak
    { envTriv with parseHtml := fun _ => scriptDoc "hi" }
    ⟨fun _ => .ok (some [97]), fun _ _ => .ok none⟩
    (some "f") w0 [97] (str "alert(1)") rfl rfl (by decide) (by decide)
    (by decide)

/-! ## World-independence of extraction results, and their event traces -/

theorem extract_google_doc_fst (client : DriveClient) (fid : Option String)
    (w w' : World) :
    (extract_google_doc client fid w).1 = (extract_google_doc client fid w').1 := by
  simp only [extract_google_doc, runExport]
  rcases h : client.exportDoc fid "text/plain" with e | (_ | b) <;> simp [h]
  rcases h2 : utf8Decode b with _ | cs <;> simp [h2]

theorem extract_google_sheet_fst (client : DriveClient) (fid : Option String)
    (w w' : World) :
    (extract_google_sheet client fid w).1 =
      (extract_google_sheet client fid w').1 := by
  simp only [extract_google_sheet, runExport]
  rcases h : client.exportDoc fid "text/csv" with e | (_ | b) <;> simp [h]
  rcases h2 : utf8Decode b with _ | cs <;> simp [h2]

theorem extract_google_slides_fst (env : Env) (client : DriveClient)
    (fid : Option String) (w w' : World) :
    (extract_google_slides env client fid w).1 =
      (extract_google_slides env client fid w').1 := by
  simp only [extract_google_slides, runExport]
  rcases h : client.exportDoc fid "text/plain" with e | (_ | b) <;> simp [h]
  · rcases h2 : client.exportDoc fid "application/pdf" with e2 | (_ | pb) <;>
      simp [h2]
  · rcases h2 : utf8Decode b with _ | cs <;> simp [h2]

theorem extract_pdf_fst (env : Env) (client : DriveClient)
    (fid : Option String) (w w' : World) :
    (extract_pdf env client fid w).1 = (extract_pdf env client fid w').1 := by
  simp only [extract_pdf, runDownload]
  rcases h : client.download fid with e | (_ | b) <;> simp [h]

theorem extract_docx_fst (env : Env) (client : DriveClient)
    (fid : Option String) (w w' : World) :
    (extract_docx env client fid w).1 = (extract_docx env client fid w').1 := by
  cases hA : env.docxAvailable
  · simp [extract_docx, hA]
  · simp only [extract_docx, hA, runDownload]
    rcases h : client.download fid with e | (_ | b) <;> simp [h]
    rcases h2 : env.docxParse b with e | paras <;> simp [h2]

theorem extract_pptx_fst (env : Env) (client : DriveClient)
    (fid : Option String) (w w' : World) :
    (extract_pptx env client fid w).1 = (extract_pptx env client fid w').1 := by
  cases hA : env.pptxAvailable
  · simp [extract_pptx, hA]
  · simp only [extract_pptx, hA, runDownload]
    rcases h : client.download fid with e | (_ | b) <;> simp [h]
    rcases h2 : env.pptxParse b with e | slides <;> simp [h2]

theorem extract_text_file_fst (client : DriveClient) (fid : Option String)
    (w w' : World) :
    (extract_text_file client fid w).1 = (extract_text_file client fid w').1 := by
  simp only [extract_text_file, runDownload]
  rcases h : client.download fid with e | (_ | b) <;> simp [h]

theorem extract_html_fst (env : Env) (client : DriveClient)
    (fid : Option String) (w w' : World) :
    (extract_html env client fid w).1 = (extract_html env client fid w').1 := by
  cases hA : env.bs4Available
  · simp [extract_html, hA]
  · simp only [extract_html, hA, runDownload]
    rcases h : client.download fid with e | (_ | b) <;> simp [h]

/-- The value the dispatcher extracts for a descriptor: it does not depend
on the ambient world. -/
def extractVal (env : Env) (client : DriveClient) (fi : FileInfo) : PyStr :=
  (extract_file_content env client fi w0).1

theorem extract_file_content_fst (env : Env) (client : DriveClient)
    (fi : FileInfo) (w : World) :
    (extract_file_content env client fi w).1 = extractVal env client fi := by
  rw [extractVal]
  simp only [extract_file_content]
  split_ifs
  · exact extract_google_doc_fst client fi.id w w0
  · exact extract_google_sheet_fst client fi.id w w0
  · exact extract_google_slides_fst env client fi.id w w0
  · exact extract_pdf_fst env client fi.id w w0
  · exact extract_docx_fst env client fi.id w w0
  · exact extract_pptx_fst env client fi.id w w0
  · exact extract_text_file_fst client fi.id w w0
  · exact extract_html_fst env client fi.id w w0
  · exact extract_text_file_fst client fi.id w w0
  · rfl

theorem extract_google_doc_events (client : DriveClient)
    (fid : Option String) (w : World) (c : PyStr) :
    Event.summarizeCall c ∈ (extract_google_doc client fid w).2.events ↔
      Event.summarizeCall c ∈ w.events := by
  simp only [extract_google_doc, runExport, logEvent]
  rcases h : client.exportDoc fid "text/plain" with e | (_ | b) <;> simp [h]
  rcases h2 : utf8Decode b with _ | cs <;> simp [h2]

theorem extract_google_sheet_events (client : DriveClient)
    (fid : Option String) (w : World) (c : PyStr) :
    Event.summarizeCall c ∈ (extract_google_sheet client fid w).2.events ↔
      Event.summarizeCall c ∈ w.events := by
  simp only [extract_google_sheet, runExport, logEvent]
  rcases h : client.exportDoc fid "text/csv" with e | (_ | b) <;> simp [h]
  rcases h2 : utf8Decode b with _ | cs <;> simp [h2]

theorem extract_google_slides_events (env : Env) (client : DriveClient)
    (fid : Option String) (w : World) (c : PyStr) :
    Event.summarizeCall c ∈ (extract_google_slides env client fid w).2.events ↔
      Event.summarizeCall c ∈ w.events := by
  simp only [extract_google_slides, runExport, logEvent]
  rcases h : client.exportDoc fid "text/plain" with e | (_ | b) <;> simp [h]
  · rcases h2 : client.exportDoc fid "application/pdf" with e2 | (_ | pb) <;>
      simp [h2]
  · rcases h2 : utf8Decode b with _ | cs <;> simp [h2]

theorem extract_pdf_events (env : Env) (client : DriveClient)
    (fid : Option String) (w : World) (c : PyStr) :
    Event.summarizeCall c ∈ (extract_pdf env client fid w).2.events ↔
      Event.summarizeCall c ∈ w.events := by
  simp only [extract_pdf, runDownload, logEvent]
  rcases h : client.download fid with e | (_ | b) <;> simp [h]

theorem extract_docx_events (env : Env) (client : DriveClient)
    (fid : Option String) (w : World) (c : PyStr) :
    Event.summarizeCall c ∈ (extract_docx env client fid w).2.events ↔
      Event.summarizeCall c ∈ w.events := by
  cases hA : env.docxAvailable
  · simp [extract_docx, hA]
  · simp only [extract_docx, hA, runDownload, logEvent]
    rcases h : client.download fid with e | (_ | b) <;> simp [h]
    rcases h2 : env.docxParse b with e | paras <;> simp [h2]
    cases env.unlinkFails <;> simp

theorem extract_pptx_events (env : Env) (client : DriveClient)
    (fid : Option String) (w : World) (c : PyStr) :
    Event.summarizeCall c ∈ (extract_pptx env client fid w).2.events ↔
      Event.summarizeCall c ∈ w.events := by
  cases hA : env.pptxAvailable
  · simp [extract_pptx, hA]
  · simp only [extract_pptx, hA, runDownload, logEvent]
    rcases h : client.download fid with e | (_ | b) <;> simp [h]
    rcases h2 : env.pptxParse b with e | slides <;> simp [h2]
    cases env.unlinkFails <;> simp

theorem extract_text_file_events (client : DriveClient)
    (fid : Option String) (w : World) (c : PyStr) :
    Event.summarizeCall c ∈ (extract_text_file client fid w).2.events ↔
      Event.summarizeCall c ∈ w.events := by
  simp only [extract_text_file, runDownload, logEvent]
  rcases h : client.download fid with e | (_ | b) <;> simp [h]

theorem extract_html_events (env : Env) (client : DriveClient)
    (fid : Option String) (w : World) (c : PyStr) :
    Event.summarizeCall c ∈ (extract_html env client fid w).2.events ↔
      Event.summarizeCall c ∈ w.events := by
  cases hA : env.bs4Available
  · simp [extract_html, hA]
  · simp only [extract_html, hA, runDownload, logEvent]
    rcases h : client.download fid with e | (_ | b) <;> simp [h]

/-- The extractors invoke only the drive layer: no summarizer call ever
appears in their event trace. -/
theorem extract_file_content_events (env : Env) (client : DriveClient)
    (fi : FileInfo) (w : World) (c : PyStr) :
    Event.summarizeCall c ∈ (extract_file_content env client fi w).2.events ↔
      Event.summarizeCall c ∈ w.events := by
  simp only [extract_file_content]
  split_ifs
  · exact extract_google_doc_events client fi.id w c
  · exact extract_google_sheet_events client fi.id w c
  · exact extract_google_slides_events env client fi.id w c
  · exact extract_pdf_events env client fi.id w c
  · exact extract_docx_events env client fi.id w c
  · exact extract_pptx_events env client fi.id w c
  · exact extract_text_file_events client fi.id w c
  · exact extract_html_events env client fi.id w c
  · exact extract_text_file_events client fi.id w c
  · exact Iff.rfl

/-! ## C5: the per-file processing loop -/

/-- The document entry the loop produces for a descriptor: `none` exactly
when the extracted text is empty or strips to whitespace only; otherwise
the record holding the descriptor, the summarizer's result and the
extracted text verbatim (bracketed failure markers included). -/
def keptRecord (env : Env) (client : DriveClient) (fi : FileInfo) :
    Option DocumentRecord :=
  let c := extractVal env client fi
  if c ≠ [] ∧ pyStrip c ≠ [] then some ⟨fi, env.summarize c, c⟩ else none

/-- C5.  The processing loop yields exactly one document record per listed
descriptor, in listing order, with the extracted text (failure markers
included) stored verbatim as the record's content — except that a
descriptor whose extracted text is empty after stripping is skipped; and
the summarizer is only ever invoked on the non-empty extracted texts of
listed descriptors (a skipped descriptor never reaches it). -/
theorem processing_loop_spec (env : Env) (client : DriveClient) :
    ∀ (files : List FileInfo) (w : World),
    (processFiles env client files w).1 =
      files.filterMap (keptRecord env client) ∧
    (∀ c, Event.summarizeCall c ∈ (processFiles env client files w).2.events →
      Event.summarizeCall c ∈ w.events ∨
      ∃ fi ∈ files, c = extractVal env client fi ∧ c ≠ [] ∧
        pyStrip c ≠ []) := by
  intro files
  induction files with
  | nil => exact fun w => ⟨rfl, fun c h => Or.inl h⟩
  | cons fi rest ih =>
    intro w
    have hval := extract_file_content_fst env client fi w
    have hk : keptRecord env client fi =
        if extractVal env client fi ≠ [] ∧
            pyStrip (extractVal env client fi) ≠ [] then
          some ⟨fi, env.summarize (extractVal env client fi),
            extractVal env client fi⟩
        else none := rfl
    by_cases hc : extractVal env client fi ≠ [] ∧
        pyStrip (extractVal env client fi) ≠ []
    · constructor
      · simp only [processFiles, hval]
        rw [if_pos hc, List.filterMap_cons, hk, if_pos hc]
        exact congrArg _ (ih _).1
      · intro c hmem
        simp only [processFiles, hval] at hmem
        rw [if_pos hc] at hmem
        rcases (ih _).2 c hmem with h | ⟨fi', hm', hrest⟩
        · simp only [logEvent, List.mem_append, List.mem_singleton] at h
          rcases h with h | h
          · rcases (extract_file_content_events env client fi w c).1 h with h2
            exact Or.inl h2
          · injection h with h3
            exact Or.inr ⟨fi, List.mem_cons_self fi rest, h3, h3 ▸ hc⟩
        · exact Or.inr ⟨fi', List.mem_cons_of_mem fi hm', hrest⟩
    · constructor
      · simp only [processFiles, hval]
        rw [if_neg hc, List.filterMap_cons, hk, if_neg hc]
        exact (ih _).1
      · intro c hmem
        simp only [processFiles, hval] at hmem
        rw [if_neg hc] at hmem
        rcases (ih _).2 c hmem with h | ⟨fi', hm', hrest⟩
        · exact Or.inl ((extract_file_content_events env client fi w c).1 h)
        · exact Or.inr ⟨fi', List.mem_cons_of_mem fi hm', hrest⟩

/-- C5 witness: one descriptor extracting to a non-empty text and one
whose text is whitespace-only: the loop keeps exactly the first, in order,
with its content stored verbatim. -/
theorem processing_loop_spec_witness :
    (processFiles envTriv
      ⟨fun fid => if fid = some "f1" then .ok (some [104]) else .ok (some [32]),
       fun _ _ => .ok none⟩
      [⟨some "f1", "a", "text/plain"⟩, ⟨some "f2", "b", "text/plain"⟩]
      w0).1 =
      [⟨⟨some "f1", "a", "text/plain"⟩, envTriv.summarize (str "h"), str "h"⟩] := by
  have h := (processing_loop_spec envTriv
    ⟨fun fid => if fid = some "f1" then .ok (some [104]) else .ok (some [32]),
     fun _ _ => .ok none⟩
    [⟨some "f1", "a", "text/plain"⟩, ⟨some "f2", "b", "text/plain"⟩] w0).1
  rw [h]
  decide

/-! ## C1: the dispatcher always returns a string of one of three kinds -/

/-- The success-path extraction values of the dispatcher, one disjunct per
fetch-and-parse pipeline: plain-text export decoded strictly (Google Docs
and the direct Google Slides path), CSV export decoded strictly (Sheets),
the Slides PDF fallback, downloaded PDF pages, DOCX paragraphs, PPTX
slides, permissively decoded text (plain text and markdown), and the HTML
pipeline. -/
def DispatchSuccess (env : Env) (client : DriveClient) (fi : FileInfo)
    (r : PyStr) : Prop :=
  (∃ b cs, client.exportDoc fi.id "text/plain" = .ok (some b) ∧
    utf8Decode b = some cs ∧ r = cs) ∨
  (∃ b cs, client.exportDoc fi.id "text/csv" = .ok (some b) ∧
    utf8Decode b = some cs ∧ r = cs) ∨
  (∃ pb pages, client.exportDoc fi.id "text/plain" = .ok none ∧
    client.exportDoc fi.id "application/pdf" = .ok (some pb) ∧
    env.pdfParse pb = .ok pages ∧ r = joinSep nl2 (pages ++ [[]])) ∨
  (∃ b pages, client.download fi.id = .ok (some b) ∧
    env.pdfParse b = .ok pages ∧ r = joinSep nl2 (pages ++ [[]])) ∨
  (∃ b paras, client.download fi.id = .ok (some b) ∧
    env.docxParse b = .ok paras ∧ r = joinSep nl1 paras) ∨
  (∃ b slides, client.download fi.id = .ok (some b) ∧
    env.pptxParse b = .ok slides ∧
    r = joinSep nl2 ((slides.filter (fun s => !s.isEmpty)).map
      (fun s => joinSep nl1 s))) ∨
  (∃ b, client.download fi.id = .ok (some b) ∧ r = decodeReplace b) ∨
  (∃ b, client.download fi.id = .ok (some b) ∧ r = htmlPipeline env b)

theorem extract_google_doc_outcome (client : DriveClient)
    (fid : Option String) (w : World) :
    (extract_google_doc client fid w).1 = [] ∨
    Bracketed (extract_google_doc client fid w).1 ∨
    (∃ b cs, client.exportDoc fid "text/plain" = .ok (some b) ∧
      utf8Decode b = some cs ∧ (extract_google_doc client fid w).1 = cs) := by
  rcases h : client.exportDoc fid "text/plain" with e | (_ | b)
  · refine Or.inr (Or.inl ?_)
    have hr : (extract_google_doc client fid w).1 = errExtract "Google Doc" e := by
      simp [extract_google_doc, runExport, h]
    rw [hr]
    exact bracketed_errExtract _ _
  · exact Or.inl (by simp [extract_google_doc, runExport, h])
  · rcases h2 : utf8Decode b with _ | cs
    · refine Or.inr (Or.inl ?_)
      have hr : (extract_google_doc client fid w).1 =
          errExtract "Google Doc" utf8ErrMsg := by
        simp [extract_google_doc, runExport, h, h2]
      rw [hr]
      exact bracketed_errExtract _ _
    · exact Or.inr (Or.inr ⟨b, cs, rfl, h2,
        by simp [extract_google_doc, runExport, h, h2]⟩)

theorem extract_google_sheet_outcome (client : DriveClient)
    (fid : Option String) (w : World) :
    (extract_google_sheet client fid w).1 = [] ∨
    Bracketed (extract_google_sheet client fid w).1 ∨
    (∃ b cs, client.exportDoc fid "text/csv" = .ok (some b) ∧
      utf8Decode b = some cs ∧ (extract_google_sheet client fid w).1 = cs) := by
  rcases h : client.exportDoc fid "text/csv" with e | (_ | b)
  · refine Or.inr (Or.inl ?_)
    have hr : (extract_google_sheet client fid w).1 =
        errExtract "Google Sheet" e := by
      simp [extract_google_sheet, runExport, h]
    rw [hr]
    exact bracketed_errExtract _ _
  · exact Or.inl (by simp [extract_google_sheet, runExport, h])
  · rcases h2 : utf8Decode b with _ | cs
    · refine Or.inr (Or.inl ?_)
      have hr : (extract_google_sheet client fid w).1 =
          errExtract "Google Sheet" utf8ErrMsg := by
        simp [extract_google_sheet, runExport, h, h2]
      rw [hr]
      exact bracketed_errExtract _ _
    · exact Or.inr (Or.inr ⟨b, cs, rfl, h2,
        by simp [extract_google_sheet, runExport, h, h2]⟩)

theorem extract_pdf_bytes_outcome (env : Env) (b : Bytes) :
    Bracketed (extract_text_from_pdf_bytes env b) ∨
    (∃ pages, env.pdfParse b = .ok pages ∧
      extract_text_from_pdf_bytes env b = joinSep nl2 (pages ++ [[]])) := by
  rcases h : env.pdfParse b with e | pages
  · refine Or.inl ?_
    have hr : extract_text_from_pdf_bytes env b =
        errExtract "PDF content" e := by
      simp [extract_text_from_pdf_bytes, h]
    rw [hr]
    exact bracketed_errExtract _ _
  · exact Or.inr ⟨pages, rfl, extract_pdf_bytes_ok env b pages h⟩

theorem extract_google_slides_outcome (env : Env) (client : DriveClient)
    (fid : Option String) (w : World) :
    (extract_google_slides env client fid w).1 = [] ∨
    Bracketed (extract_google_slides env client fid w).1 ∨
    (∃ b cs, client.exportDoc fid "text/plain" = .ok (some b) ∧
      utf8Decode b = some cs ∧
      (extract_google_slides env client fid w).1 = cs) ∨
    (∃ pb pages, client.exportDoc fid "text/plain" = .ok none ∧
      client.exportDoc fid "application/pdf" = .ok (some pb) ∧
      env.pdfParse pb = .ok pages ∧
      (extract_google_slides env client fid w).1 =
        joinSep nl2 (pages ++ [[]])) := by
  rcases h : client.exportDoc fid "text/plain" with e | (_ | b)
  · refine Or.inr (Or.inl ?_)
    have hr : (extract_google_slides env client fid w).1 =
        errExtract "Google Slides" e := by
      simp [extract_google_slides, runExport, h]
    rw [hr]
    exact bracketed_errExtract _ _
  · rcases h2 : client.exportDoc fid "application/pdf" with e2 | (_ | pb)
    · refine Or.inr (Or.inl ?_)
      have hr : (extract_google_slides env client fid w).1 =
          errExtract "Google Slides" e2 := by
        simp [extract_google_slides, runExport, h, h2]
      rw [hr]
      exact bracketed_errExtract _ _
    · exact Or.inl (by simp [extract_google_slides, runExport, h, h2])
    · have hr : (extract_google_slides env client fid w).1 =
          extract_text_from_pdf_bytes env pb := by
        simp [extract_google_slides, runExport, h, h2]
      rcases extract_pdf_bytes_outcome env pb with hb | ⟨pages, hp, hj⟩
      · exact Or.inr (Or.inl (hr ▸ hb))
      · exact Or.inr (Or.inr (Or.inr ⟨pb, pages, rfl, rfl, hp, hr.trans hj⟩))
  · rcases h2 : utf8Decode b with _ | cs
    · refine Or.inr (Or.inl ?_)
      have hr : (extract_google_slides env client fid w).1 =
          errExtract "Google Slides" utf8ErrMsg := by
        simp [extract_google_slides, runExport, h, h2]
      rw [hr]
      exact bracketed_errExtract _ _
    · exact Or.inr (Or.inr (Or.inl ⟨b, cs, rfl, h2,
        by simp [extract_google_slides, runExport, h, h2]⟩))

theorem extract_pdf_outcome (env : Env) (client : DriveClient)
    (fid : Option String) (w : World) :
    (extract_pdf env client fid w).1 = [] ∨
    Bracketed (extract_pdf env client fid w).1 ∨
    (∃ b pages, client.download fid = .ok (some b) ∧
      env.pdfParse b = .ok pages ∧
      (extract_pdf env client fid w).1 = joinSep nl2 (pages ++ [[]])) := by
  rcases h : client.download fid with e | (_ | b)
  · refine Or.inr (Or.inl ?_)
    have hr : (extract_pdf env client fid w).1 = errExtract "PDF" e := by
      simp [extract_pdf, runDownload, h]
    rw [hr]
    exact bracketed_errExtract _ _
  · exact Or.inl (by simp [extract_pdf, runDownload, h])
  · have hr : (extract_pdf env client fid w).1 =
        extract_text_from_pdf_bytes env b := by
      simp [extract_pdf, runDownload, h]
    rcases extract_pdf_bytes_outcome env b with hb | ⟨pages, hp, hj⟩
    · exact Or.inr (Or.inl (hr ▸ hb))
    · exact Or.inr (Or.inr ⟨b, pages, rfl, hp, hr.trans hj⟩)

theorem extract_docx_outcome (env : Env) (client : DriveClient)
    (fid : Option String) (w : World) :
    (extract_docx env client fid w).1 = [] ∨
    Bracketed (extract_docx env client fid w).1 ∨
    (∃ b paras, client.download fid = .ok (some b) ∧
      env.docxParse b = .ok paras ∧
      (extract_docx env client fid w).1 = joinSep nl1 paras) := by
  cases hA : env.docxAvailable
  · refine Or.inr (Or.inl ?_)
    have hr : (extract_docx env client fid w).1 =
        str "[python-docx library not installed. Cannot extract DOCX content.]" := by
      simp [extract_docx, hA]
    rw [hr]
    exact ⟨rfl, rfl⟩
  · rcases h : client.download fid with e | (_ | b)
    · refine Or.inr (Or.inl ?_)
      have hr : (extract_docx env client fid w).1 = errExtract "DOCX" e := by
        simp [extract_docx, hA, runDownload, h]
      rw [hr]
      exact bracketed_errExtract _ _
    · exact Or.inl (by simp [extract_docx, hA, runDownload, h])
    · rcases h2 : env.docxParse b with e | paras
      · refine Or.inr (Or.inl ?_)
        have hr : (extract_docx env client fid w).1 = errExtract "DOCX" e := by
          simp [extract_docx, hA, runDownload, h, h2]
        rw [hr]
        exact bracketed_errExtract _ _
      · exact Or.inr (Or.inr ⟨b, paras, rfl, h2,
          by cases hu : env.unlinkFails <;>
            simp [extract_docx, hA, runDownload, h, h2, hu]⟩)

theorem extract_pptx_outcome (env : Env) (client : DriveClient)
    (fid : Option String) (w : World) :
    (extract_pptx env client fid w).1 = [] ∨
    Bracketed (extract_pptx env client fid w).1 ∨
    (∃ b slides, client.download fid = .ok (some b) ∧
      env.pptxParse b = .ok slides ∧
      (extract_pptx env client fid w).1 =
        joinSep nl2 ((slides.filter (fun s => !s.isEmpty)).map
          (fun s => joinSep nl1 s))) := by
  cases hA : env.pptxAvailable
  · refine Or.inr (Or.inl ?_)
    have hr : (extract_pptx env client fid w).1 =
        str "[python-pptx library not installed. Cannot extract PPTX content.]" := by
      simp [extract_pptx, hA]
    rw [hr]
    exact ⟨rfl, rfl⟩
  · rcases h : client.download fid with e | (_ | b)
    · refine Or.inr (Or.inl ?_)
      have hr : (extract_pptx env client fid w).1 = errExtract "PPTX" e := by
        simp [extract_pptx, hA, runDownload, h]
      rw [hr]
      exact bracketed_errExtract _ _
    · exact Or.inl (by simp [extract_pptx, hA, runDownload, h])
    · rcases h2 : env.pptxParse b with e | slides
      · refine Or.inr (Or.inl ?_)
        have hr : (extract_pptx env client fid w).1 = errExtract "PPTX" e := by
          simp [extract_pptx, hA, runDownload, h, h2]
        rw [hr]
        exact bracketed_errExtract _ _
      · exact Or.inr (Or.inr ⟨b, slides, rfl, h2,
          by cases hu : env.unlinkFails <;>
            simp [extract_pptx, hA, runDownload, h, h2, hu]⟩)

theorem extract_text_file_outcome (client : DriveClient)
    (fid : Option String) (w : World) :
    (extract_text_file client fid w).1 = [] ∨
    Bracketed (extract_text_file client fid w).1 ∨
    (∃ b, client.download fid = .ok (some b) ∧
      (extract_text_file client fid w).1 = decodeReplace b) := by
  rcases h : client.download fid with e | (_ | b)
  · refine Or.inr (Or.inl ?_)
    have hr : (extract_text_file client fid w).1 =
        errExtract "text file" e := by
      simp [extract_text_file, runDownload, h]
    rw [hr]
    exact bracketed_errExtract _ _
  · exact Or.inl (by simp [extract_text_file, runDownload, h])
  · exact Or.inr (Or.inr ⟨b, rfl, by simp [extract_text_file, runDownload, h]⟩)

theorem extract_html_outcome (env : Env) (client : DriveClient)
    (fid : Option String) (w : World) :
    (extract_html env client fid w).1 = [] ∨
    Bracketed (extract_html env client fid w).1 ∨
    (∃ b, client.download fid = .ok (some b) ∧
      (extract_html env client fid w).1 = htmlPipeline env b) := by
  cases hA : env.bs4Available
  · refine Or.inr (Or.inl ?_)
    have hr : (extract_html env client fid w).1 =
        str "[BeautifulSoup4 library not installed. Cannot extract HTML content.]" := by
      simp [extract_html, hA]
    rw [hr]
    exact ⟨rfl, rfl⟩
  · rcases h : client.download fid with e | (_ | b)
    · refine Or.inr (Or.inl ?_)
      have hr : (extract_html env client fid w).1 = errExtract "HTML" e := by
        simp [extract_html, hA, runDownload, h]
      rw [hr]
      exact bracketed_errExtract _ _
    · exact Or.inl (by simp [extract_html, hA, runDownload, h])
    · exact Or.inr (Or.inr ⟨b, rfl,
        by simp [extract_html, hA, runDownload, h]⟩)

/-- C1.  For every descriptor, every drive-client behavior (including
fetches that raise) and every library behavior, the dispatcher returns a
string that is an empty string, a bracketed failure string (opening `[`,
closing `]` — the error markers, the unsupported-type marker and the
library-not-installed markers), or the extracted text of the matching
branch's success pipeline: no branch raises past the boundary. -/
theorem dispatch_total_outcome (env : Env) (client : DriveClient)
    (fi : FileInfo) (w : World) :
    (extract_file_content env client fi w).1 = [] ∨
    Bracketed (extract_file_content env client fi w).1 ∨
    DispatchSuccess env client fi (extract_file_content env client fi w).1 := by
  by_cases h1 : fi.mimeType = "application/vnd.google-apps.document"
  · rw [extract_file_content, if_pos h1]
    rcases extract_google_doc_outcome client fi.id w with h | h | h
    · exact Or.inl h
    · exact Or.inr (Or.inl h)
    · exact Or.inr (Or.inr (Or.inl h))
  by_cases h2 : fi.mimeType = "application/vnd.google-apps.spreadsheet"
  · rw [extract_file_content, if_neg h1, if_pos h2]
    rcases extract_google_sheet_outcome client fi.id w with h | h | h
    · exact Or.inl h
    · exact Or.inr (Or.inl h)
    · exact Or.inr (Or.inr (Or.inr (Or.inl h)))
  by_cases h3 : fi.mimeType = "application/vnd.google-apps.presentation"
  · rw [extract_file_content, if_neg h1, if_neg h2, if_pos h3]
    rcases extract_google_slides_outcome env client fi.id w with h | h | h | h
    · exact Or.inl h
    · exact Or.inr (Or.inl h)
    · exact Or.inr (Or.inr (Or.inl h))
    · exact Or.inr (Or.inr (Or.inr (Or.inr (Or.inl h))))
  by_cases h4 : fi.mimeType = "application/pdf"
  · rw [extract_file_content, if_neg h1, if_neg h2, if_neg h3, if_pos h4]
    rcases extract_pdf_outcome env client fi.id w with h | h | h
    · exact Or.inl h
    · exact Or.inr (Or.inl h)
    · exact Or.inr (Or.inr (Or.inr (Or.inr (Or.inr (Or.inl h)))))
  by_cases h5 : fi.mimeType = "application/vnd.openxmlformats-officedocument.wordprocessingml.document"
  · rw [extract_file_content, if_neg h1, if_neg h2, if_neg h3, if_neg h4, if_pos h5]
    rcases extract_docx_outcome env client fi.id w with h | h | h
    · exact Or.inl h
    · exact Or.inr (Or.inl h)
    · exact Or.inr (Or.inr (Or.inr (Or.inr (Or.inr (Or.inr (Or.inl h))))))
  by_cases h6 : fi.mimeType = "application/vnd.openxmlformats-officedocument.presentationml.presentation"
  · rw [extract_file_content, if_neg h1, if_neg h2, if_neg h3, if_neg h4, if_neg h5, if_pos h6]
    rcases extract_pptx_outcome env client fi.id w with h | h | h
    · exact Or.inl h
    · exact Or.inr (Or.inl h)
    · exact Or.inr (Or.inr (Or.inr (Or.inr (Or.inr (Or.inr (Or.inr (Or.inl h)))))))
  by_cases h7 : fi.mimeType = "text/plain"
  · rw [extract_file_content, if_neg h1, if_neg h2, if_neg h3, if_neg h4, if_neg h5, if_neg h6, if_pos h7]
    rcases extract_text_file_outcome client fi.id w with h | h | h
    · exact Or.inl h
    · exact Or.inr (Or.inl h)
    · exact Or.inr (Or.inr (Or.inr (Or.inr (Or.inr (Or.inr (Or.inr (Or.inr (Or.inl h))))))))
  by_cases h8 : fi.mimeType = "text/html"
  · rw [extract_file_content, if_neg h1, if_neg h2, if_neg h3, if_neg h4, if_neg h5, if_neg h6, if_neg h7, if_pos h8]
    rcases extract_html_outcome env client fi.id w with h | h | h
    · exact Or.inl h
    · exact Or.inr (Or.inl h)
    · exact Or.inr (Or.inr (Or.inr (Or.inr (Or.inr (Or.inr (Or.inr (Or.inr (Or.inr (h)))))))))
  by_cases h9 : fi.mimeType = "text/markdown"
  · rw [extract_file_content, if_neg h1, if_neg h2, if_neg h3, if_neg h4, if_neg h5, if_neg h6, if_neg h7, if_neg h8, if_pos h9]
    rcases extract_text_file_outcome client fi.id w with h | h | h
    · exact Or.inl h
    · exact Or.inr (Or.inl h)
    · exact Or.inr (Or.inr (Or.inr (Or.inr (Or.inr (Or.inr (Or.inr (Or.inr (Or.inl h))))))))
  rw [extract_file_content, if_neg h1, if_neg h2, if_neg h3, if_neg h4, if_neg h5, if_neg h6, if_neg h7, if_neg h8, if_neg h9]
  exact Or.inr (Or.inl (bracketed_unsupportedMarker fi.mimeType))

end Mtexts
